import Mathlib

/-!
Verification development for the `synapse` personal knowledge-base assistant.

The development shallowly embeds the core index-lifecycle subsystem:

* `calculate_docs_hash` (src/main.py, lines 24-34): MD5 fingerprint of a
  document collection, computed over the concatenation of each document's
  UTF-8 content bytes followed by the UTF-8 bytes of `json.dumps(metadata,
  sort_keys=True)`, for the documents sorted by the key
  `(metadata.get("source", ""), page_content)` (Python's `sorted`, a stable
  sort).
* the staleness-resolution / rebuild logic of `create_personal_ai_helper`
  (src/main.py, lines 62-115), embedded as a pure function from an abstract
  filesystem state to an event trace plus a new state.
* `filter_metadata` and the source-field normalization of
  `load_and_split_folder` (src/core/loader.py).

Machine integers are modelled as `Nat` with explicit reduction modulo `2^32`;
MD5 (Python's `hashlib.md5`) is implemented in full so that fingerprints are
computed exactly as the source does.
-/

/-! ### 32-bit arithmetic over `Nat`

Bitwise operations are implemented by structural recursion over 32 bit
positions so that every computation reduces inside the kernel. -/

/-- Bitwise AND of the low `k` bits of two naturals. -/
def bitsAnd : Nat → Nat → Nat → Nat
  | 0, _, _ => 0
  | k + 1, a, b => a % 2 * (b % 2) + 2 * bitsAnd k (a / 2) (b / 2)

/-- Bitwise OR of the low `k` bits of two naturals. -/
def bitsOr : Nat → Nat → Nat → Nat
  | 0, _, _ => 0
  | k + 1, a, b => (a % 2 + b % 2 - a % 2 * (b % 2)) + 2 * bitsOr k (a / 2) (b / 2)

/-- Bitwise XOR of the low `k` bits of two naturals. -/
def bitsXor : Nat → Nat → Nat → Nat
  | 0, _, _ => 0
  | k + 1, a, b => (a % 2 + b % 2) % 2 + 2 * bitsXor k (a / 2) (b / 2)

def and32 (a b : Nat) : Nat := bitsAnd 32 a b

def or32 (a b : Nat) : Nat := bitsOr 32 a b

def xor32 (a b : Nat) : Nat := bitsXor 32 a b

/-- Bitwise complement within 32 bits (for inputs below `2^32`). -/
def not32 (a : Nat) : Nat := bitsXor 32 a 4294967295

/-- Left-rotation of a 32-bit word, expressed arithmetically: the low bits are
shifted up modulo `2^32` and the high bits wrap around to the bottom. -/
def rotl32 (x s : Nat) : Nat := (x * 2 ^ s + x / 2 ^ (32 - s)) % 4294967296

/-! ### MD5 (the digest used by `hashlib.md5` in `calculate_docs_hash`) -/

/-- Per-round sine-derived constants of MD5 (RFC 1321 table T). -/
def md5K : List Nat :=
  [0xd76aa478, 0xe8c7b756, 0x242070db, 0xc1bdceee,
   0xf57c0faf, 0x4787c62a, 0xa8304613, 0xfd469501,
   0x698098d8, 0x8b44f7af, 0xffff5bb1, 0x895cd7be,
   0x6b901122, 0xfd987193, 0xa679438e, 0x49b40821,
   0xf61e2562, 0xc040b340, 0x265e5a51, 0xe9b6c7aa,
   0xd62f105d, 0x02441453, 0xd8a1e681, 0xe7d3fbc8,
   0x21e1cde6, 0xc33707d6, 0xf4d50d87, 0x455a14ed,
   0xa9e3e905, 0xfcefa3f8, 0x676f02d9, 0x8d2a4c8a,
   0xfffa3942, 0x8771f681, 0x6d9d6122, 0xfde5380c,
   0xa4beea44, 0x4bdecfa9, 0xf6bb4b60, 0xbebfbc70,
   0x289b7ec6, 0xeaa127fa, 0xd4ef3085, 0x04881d05,
   0xd9d4d039, 0xe6db99e5, 0x1fa27cf8, 0xc4ac5665,
   0xf4292244, 0x432aff97, 0xab9423a7, 0xfc93a039,
   0x655b59c3, 0x8f0ccc92, 0xffeff47d, 0x85845dd1,
   0x6fa87e4f, 0xfe2ce6e0, 0xa3014314, 0x4e0811a1,
   0xf7537e82, 0xbd3af235, 0x2ad7d2bb, 0xeb86d391]

/-- Per-round left-rotation amounts of MD5. -/
def md5S : List Nat :=
  [7, 12, 17, 22, 7, 12, 17, 22, 7, 12, 17, 22, 7, 12, 17, 22,
   5, 9, 14, 20, 5, 9, 14, 20, 5, 9, 14, 20, 5, 9, 14, 20,
   4, 11, 16, 23, 4, 11, 16, 23, 4, 11, 16, 23, 4, 11, 16, 23,
   6, 10, 15, 21, 6, 10, 15, 21, 6, 10, 15, 21, 6, 10, 15, 21]

/-- Round function of MD5: F, G, H or I depending on the round index. -/
def md5FVal (i b c d : Nat) : Nat :=
  if i < 16 then or32 (and32 b c) (and32 (not32 b) d)
  else if i < 32 then or32 (and32 d b) (and32 (not32 d) c)
  else if i < 48 then xor32 b (xor32 c d)
  else xor32 c (or32 b (not32 d))

/-- Message-word index used at round `i` of MD5. -/
def md5GIdx (i : Nat) : Nat :=
  if i < 16 then i
  else if i < 32 then (5 * i + 1) % 16
  else if i < 48 then (3 * i + 5) % 16
  else (7 * i) % 16

/-- One round of the MD5 compression function on state `(a, b, c, d)`. -/
def md5Step (m : List Nat) (i : Nat) (st : Nat × Nat × Nat × Nat) :
    Nat × Nat × Nat × Nat :=
  let a := st.1
  let b := st.2.1
  let c := st.2.2.1
  let d := st.2.2.2
  let f := (md5FVal i b c d + a + md5K.getD i 0 + m.getD (md5GIdx i) 0) % 4294967296
  (d, (b + rotl32 f (md5S.getD i 0)) % 4294967296, b, c)

/-- Applies `n` successive MD5 rounds starting at round `64 - n`. -/
def md5Rounds (m : List Nat) : Nat → Nat × Nat × Nat × Nat → Nat × Nat × Nat × Nat
  | 0, st => st
  | n + 1, st => md5Rounds m n (md5Step m (64 - (n + 1)) st)

/-- Little-endian decomposition of a natural into `k` bytes. -/
def toBytesLE (n : Nat) : Nat → List Nat
  | 0 => []
  | k + 1 => n % 256 :: toBytesLE (n / 256) k

/-- Groups a flat byte list into little-endian 32-bit words. -/
def bytesToWords : List Nat → List Nat
  | b0 :: b1 :: b2 :: b3 :: rest =>
      (b0 + 256 * (b1 + 256 * (b2 + 256 * b3))) :: bytesToWords rest
  | _ => []

/-- Processes one 64-byte block, updating the MD5 chaining state. -/
def md5Block (st : Nat × Nat × Nat × Nat) (block : List Nat) :
    Nat × Nat × Nat × Nat :=
  let m := bytesToWords block
  let r := md5Rounds m 64 st
  ((st.1 + r.1) % 4294967296, (st.2.1 + r.2.1) % 4294967296,
   (st.2.2.1 + r.2.2.1) % 4294967296, (st.2.2.2 + r.2.2.2) % 4294967296)

/-- Folds the MD5 compression function over a list of blocks. -/
def md5Blocks : List (List Nat) → Nat × Nat × Nat × Nat → Nat × Nat × Nat × Nat
  | [], st => st
  | blk :: rest, st => md5Blocks rest (md5Block st blk)

/-- MD5 padding: a `0x80` byte, zeros up to 56 mod 64, then the bit length as
a 64-bit little-endian quantity. -/
def md5Pad (msg : List Nat) : List Nat :=
  msg ++ [0x80] ++ List.replicate ((119 - msg.length % 64) % 64) 0 ++
    toBytesLE (msg.length * 8) 8

/-- Splits a byte list into chunks of 64 bytes; the fuel argument bounds the
number of chunks and is instantiated with the list length, which always
suffices since every step consumes 64 (at least one) elements. -/
def chunks64Go : Nat → List Nat → List (List Nat)
  | 0, _ => []
  | _, [] => []
  | fuel + 1, a :: rest => (a :: rest).take 64 :: chunks64Go fuel ((a :: rest).drop 64)

/-- Splits a byte list into chunks of 64 bytes. -/
def chunks64 (l : List Nat) : List (List Nat) := chunks64Go l.length l

/-- MD5 digest of a byte string, as 16 bytes. -/
def md5Digest (msg : List Nat) : List Nat :=
  let st := md5Blocks (chunks64 (md5Pad msg)) (0x67452301, 0xefcdab89, 0x98badcfe, 0x10325476)
  toBytesLE st.1 4 ++ toBytesLE st.2.1 4 ++ toBytesLE st.2.2.1 4 ++ toBytesLE st.2.2.2 4

/-- Lowercase hexadecimal digit. -/
def hexDigit (n : Nat) : Char :=
  if n < 10 then Char.ofNat (48 + n) else Char.ofNat (87 + n)

/-- Two-digit lowercase hexadecimal rendering of a byte. -/
def byteToHex (b : Nat) : String :=
  String.mk [hexDigit (b / 16), hexDigit (b % 16)]

/-- Lowercase hex digest of a byte string, as Python's `md5(...).hexdigest()`. -/
def md5Hex (msg : List Nat) : String :=
  String.join ((md5Digest msg).map byteToHex)

/-! ### UTF-8 encoding (`str.encode("utf-8")` in Python) -/

/-- UTF-8 byte sequence of a single Unicode code point. -/
def utf8EncodeChar (c : Char) : List Nat :=
  let n := c.toNat
  if n < 0x80 then [n]
  else if n < 0x800 then [0xc0 + n / 64, 0x80 + n % 64]
  else if n < 0x10000 then [0xe0 + n / 4096, 0x80 + n / 64 % 64, 0x80 + n % 64]
  else [0xf0 + n / 262144, 0x80 + n / 4096 % 64, 0x80 + n / 64 % 64, 0x80 + n % 64]

/-- UTF-8 bytes of a string. -/
def strBytes (s : String) : List Nat := (s.data.map utf8EncodeChar).flatten

/-! ### Python string ordering (code-point lexicographic, used by `sorted`) -/

/-- Lexicographic less-or-equal on character lists by code point, the order
Python uses to compare strings. -/
def charsLe : List Char → List Char → Bool
  | [], _ => true
  | _ :: _, [] => false
  | a :: as, b :: bs =>
      if a.toNat < b.toNat then true
      else if b.toNat < a.toNat then false
      else charsLe as bs

def strLe (s t : String) : Bool := charsLe s.data t.data

def strLt (s t : String) : Bool := !strLe t s

/-! ### Python values

Metadata values are arbitrary Python objects; the embedding covers the shapes
relevant to this program: primitives (`str`, `int`, `float`, `bool`), lists,
dicts and `None`. A float is modelled by its `repr` string, which is all the
program ever does with one (JSON serialization); no float arithmetic occurs. -/

inductive PyVal where
  | str (s : String)
  | int (n : Int)
  | float (r : String)
  | bool (b : Bool)
  | list (l : List PyVal)
  | dict (entries : List (String × PyVal))
  | none

/-! ### Stable insertion sort (Python's `sorted` is a stable sort) -/

/-- Inserts `x` before the first element `y` with `le x y`; with a
less-or-equal comparison whose equal-key case answers `true`, this places `x`
in front of equal-key elements, which combined with `sortBy` reproduces the
stability of Python's `sorted`. -/
def insertBy (le : α → α → Bool) (x : α) : List α → List α
  | [] => [x]
  | y :: ys => if le x y then x :: y :: ys else y :: insertBy le x ys

/-- Stable insertion sort. -/
def sortBy (le : α → α → Bool) : List α → List α
  | [] => []
  | x :: xs => insertBy le x (sortBy le xs)

/-! ### `json.dumps(..., sort_keys=True)` with default separators -/

/-- Four-digit lowercase hexadecimal rendering, for `\uXXXX` escapes. -/
def natToHex4 (n : Nat) : String :=
  String.mk [hexDigit (n / 4096 % 16), hexDigit (n / 256 % 16),
    hexDigit (n / 16 % 16), hexDigit (n % 16)]

/-- JSON escaping of one character as Python's `json.dumps` does with its
default `ensure_ascii=True`: named escapes for the usual control characters,
`\uXXXX` (with surrogate pairs beyond the BMP) for other characters outside
the printable ASCII range. -/
def jsonEscapeChar (c : Char) : String :=
  if c = Char.ofNat 34 then "\\\""
  else if c = Char.ofNat 92 then "\\\\"
  else if c = Char.ofNat 8 then "\\b"
  else if c = Char.ofNat 9 then "\\t"
  else if c = Char.ofNat 10 then "\\n"
  else if c = Char.ofNat 12 then "\\f"
  else if c = Char.ofNat 13 then "\\r"
  else if c.toNat < 0x20 || c.toNat > 0x7e then
    if c.toNat < 0x10000 then "\\u" ++ natToHex4 c.toNat
    else
      "\\u" ++ natToHex4 (0xd800 + (c.toNat - 0x10000) / 1024) ++
        "\\u" ++ natToHex4 (0xdc00 + (c.toNat - 0x10000) % 1024)
  else String.singleton c

/-- JSON string literal with escapes. -/
def jsonQuote (s : String) : String :=
  "\"" ++ String.join (s.data.map jsonEscapeChar) ++ "\""

/-- Joins rendered items with a separator, as `", ".join(...)`. -/
def joinSep (sep : String) : List String → String
  | [] => ""
  | [s] => s
  | s :: ss => s ++ sep ++ joinSep sep ss

/-- Comparison of dict entries by key, for `sort_keys=True`. -/
def kvLe (a b : String × PyVal) : Bool := strLe a.1 b.1

/-- JSON rendering with a structural fuel bounding the container nesting
depth; the fuel only decreases when descending into a list or dict, so any
fuel at least the nesting depth (in particular `sizeOf` of the value) yields
the exact `json.dumps` rendering with sorted keys and the default
`", "`/`": "` separators. -/
def jsonValF : Nat → PyVal → String
  | _, PyVal.str s => jsonQuote s
  | _, PyVal.int n => toString n
  | _, PyVal.float r => r
  | _, PyVal.bool b => if b then "true" else "false"
  | _, PyVal.none => "null"
  | 0, PyVal.list _ => ""
  | 0, PyVal.dict _ => ""
  | fuel + 1, PyVal.list l => "[" ++ joinSep ", " (l.map (jsonValF fuel)) ++ "]"
  | fuel + 1, PyVal.dict d =>
      "\x7b" ++
        joinSep ", "
          ((sortBy kvLe d).map (fun kv => jsonQuote kv.1 ++ ": " ++ jsonValF fuel kv.2)) ++
        "\x7d"

/-! Structural size of a Python value, a strict bound on its nesting depth. -/
mutual
/-- Structural size of a Python value. -/
def pySize : PyVal → Nat
  | PyVal.list l => 1 + pySizeList l
  | PyVal.dict d => 1 + pySizeEntries d
  | _ => 1
def pySizeList : List PyVal → Nat
  | [] => 0
  | v :: vs => 1 + pySize v + pySizeList vs
def pySizeEntries : List (String × PyVal) → Nat
  | [] => 0
  | (_, v) :: kvs => 1 + pySize v + pySizeEntries kvs
end

/-- JSON rendering of a Python value (`pySize` strictly bounds nesting depth,
so the fuel never runs out). -/
def jsonVal (v : PyVal) : String := jsonValF (pySize v) v

/-- Rendering of a metadata dict as `json.dumps(metadata, sort_keys=True)`. -/
def metadataJson (m : List (String × PyVal)) : String := jsonVal (PyVal.dict m)

/-! ### Documents and `calculate_docs_hash` (src/main.py, lines 24-34) -/

/-- A langchain `Document`: page content plus a metadata dict. -/
structure Doc where
  page_content : String
  metadata : List (String × PyVal)

/-- The sort key component `d.metadata.get("source", "")`. The embedding reads
a string-valued `source`; a non-string `source` (on which Python's tuple
comparison would be degenerate or raise) is read as the default `""`. -/
def getSource (d : Doc) : String :=
  match d.metadata.lookup "source" with
  | some (PyVal.str s) => s
  | _ => ""

/-- Comparison of documents by the tuple key
`(d.metadata.get("source", ""), d.page_content)`. -/
def docLe (a b : Doc) : Bool :=
  strLt (getSource a) (getSource b) ||
    (getSource a == getSource b && strLe a.page_content b.page_content)

/-- Byte contribution of one document to the fingerprint: UTF-8 content bytes
followed by the UTF-8 bytes of the sorted-key JSON of its metadata, with no
length prefix or delimiter (src/main.py, lines 30-33). -/
def encodeDoc (d : Doc) : List Nat :=
  strBytes d.page_content ++ strBytes (metadataJson d.metadata)

/-- Pre-hash byte stream of a collection: concatenation of the documents'
encodings in stable-sorted order (src/main.py, lines 27-33). -/
def encodeDocs (docs : List Doc) : List Nat :=
  ((sortBy docLe docs).map encodeDoc).flatten

/-- The fingerprint function `calculate_docs_hash` (src/main.py, lines
24-34): the MD5 hexdigest of the pre-hash byte stream. -/
def calculate_docs_hash (docs : List Doc) : String := md5Hex (encodeDocs docs)

/-! ### `filter_metadata` (src/core/loader.py, lines 8-19) -/

/-- Python `isinstance(v, (str, int, float, bool))`. -/
def isPrimitive : PyVal → Bool
  | PyVal.str _ => true
  | PyVal.int _ => true
  | PyVal.float _ => true
  | PyVal.bool _ => true
  | _ => false

/-- Python `isinstance(v, list) and len(v) > 0 and isinstance(v[0], (str, int,
float, bool))`: the guard that keeps a list value. Only the first element is
inspected. -/
def listHeadPrimitive : PyVal → Bool
  | PyVal.list (x :: _) => isPrimitive x
  | _ => false

/-- Python `v[0] if isinstance(v, list) and len(v) > 0 else v`. -/
def flattenVal : PyVal → PyVal
  | PyVal.list (x :: _) => x
  | v => v

/-- The metadata normalization function `filter_metadata` (src/core/loader.py,
lines 8-19): the dict comprehension keeps an entry when its value is a
primitive or a nonempty list with primitive first element, and replaces a kept
nonempty list by its first element. -/
def filter_metadata (m : List (String × PyVal)) : List (String × PyVal) :=
  (m.filter fun kv => isPrimitive kv.2 || listHeadPrimitive kv.2).map
    fun kv => (kv.1, flattenVal kv.2)

/-- Tests that every element of a list is primitive. -/
def allPrimitive : List PyVal → Bool
  | [] => true
  | v :: vs => isPrimitive v && allPrimitive vs

/-- Keep-guard following the claimed specification of the normalization
function word for word: a primitive is kept, a list value is kept only when
its elements are all primitive (reading the nonempty case, since an empty
list has no first element to replace it by), and everything else is dropped. -/
def c9SpecKeep : PyVal → Bool
  | PyVal.list (x :: xs) => isPrimitive x && allPrimitive xs
  | v => isPrimitive v

/-- The normalization function as the claimed specification describes it, for
comparison with `filter_metadata`. -/
def c9SpecFilter (m : List (String × PyVal)) : List (String × PyVal) :=
  (m.filter fun kv => c9SpecKeep kv.2).map fun kv => (kv.1, flattenVal kv.2)

/-! ### Source-field normalization of `load_and_split_folder`
(src/core/loader.py, lines 55-69) -/

/-- Python `os.path.basename` on POSIX paths: the suffix after the last
slash. -/
def basenameGo : List Char → List Char → List Char
  | [], acc => acc.reverse
  | c :: cs, acc => if c = '/' then basenameGo cs [] else basenameGo cs (c :: acc)

def basename (s : String) : String := String.mk (basenameGo s.data [])

/-- Python `metadata.get(k, dflt)` for a string-valued entry. -/
def pyGetStr (m : List (String × PyVal)) (k : String) (dflt : String) : String :=
  match m.lookup k with
  | some (PyVal.str s) => s
  | _ => dflt

/-- The source-field fallback of `load_and_split_folder` (src/core/loader.py,
lines 57-61): when `"source" not in doc.metadata`, the code sets
`metadata["source"] = os.path.basename(metadata.get("source", "unknown"))`;
the `get` runs in the branch where the key is absent, so it always yields the
default `"unknown"`. -/
def ensure_source (m : List (String × PyVal)) : List (String × PyVal) :=
  if (m.lookup "source").isSome then m
  else m ++ [("source", PyVal.str (basename (pyGetStr m "source" "unknown")))]

/-- Metadata of a document as returned by `load_and_split_folder`
(src/core/loader.py, lines 55-69): source-field normalization followed by
`filter_metadata`. The chunk splitter applied afterwards copies each chunk's
metadata from its parent document, so chunk metadata equals this value. -/
def clean_metadata (m : List (String × PyVal)) : List (String × PyVal) :=
  filter_metadata (ensure_source m)

/-! ### The staleness resolver of `create_personal_ai_helper`
(src/main.py, lines 62-115)

The filesystem slice the function touches is its persistence directory, the
sidecar hash file inside it, and whatever older files the directory holds.
`hashFile` distinguishes the three situations the code reacts to: absent
(`Option.none`), present but unreadable or unparseable (`some Option.none`,
the `except` path of the `try`), and readable with a stored hash value
(`some (some h)`; a readable JSON object without a `"hash"` key behaves like
`some (some "")` because of `hash_data.get("hash", "")`). -/

structure FS where
  dirExists : Bool
  hashFile : Option (Option String)
  hasOldFiles : Bool
  hasIndex : Bool
deriving DecidableEq

/-- Observable filesystem actions of `create_personal_ai_helper`, in program
order: `exitError` is `exit(1)`, `rmtree` is `shutil.rmtree(persist_directory,
ignore_errors=True)`, `makedirs` is `os.makedirs(persist_directory,
exist_ok=True)`, `build` is `build_vector_store(docs, ..., rebuilt_db=True)`
(`Chroma.from_documents`, which persists the new index), `load` is
`build_vector_store(docs, ..., rebuilt_db=False)` (`Chroma(...)`, opening the
existing store), and `writeHash h` writes the sidecar
`docs_hash.json` with hash `h`. -/
inductive Event where
  | exitError
  | rmtree
  | makedirs
  | build
  | load
  | writeHash (h : String)
deriving DecidableEq

/-- Effect of `shutil.rmtree(persist_directory, ignore_errors=True)`. -/
def applyRmtree (_fs : FS) : FS := ⟨false, Option.none, false, false⟩

/-- Effect of `os.makedirs(persist_directory, exist_ok=True)`. -/
def applyMakedirs (fs : FS) : FS := { fs with dirExists := true }

/-- Effect of a successful `Chroma.from_documents` build: new index files are
written into the directory; pre-existing contents are not removed. -/
def applyBuild (fs : FS) : FS := { fs with hasIndex := true }

/-- Effect of writing the sidecar hash file (src/main.py, lines 108-109). -/
def applyWriteHash (fs : FS) (h : String) : FS := { fs with hashFile := some (some h) }

/-- The staleness check of src/main.py, lines 72-98: starting from
`rebuild_db = True`, when the persistence directory and the hash file both
exist the stored hash is read; on a match the rebuild is cancelled, on a
mismatch the directory is removed, and on a read/parse failure (the `except`
branch) the directory is removed as well. Returns the emitted events, the
final `rebuild_db` flag and the filesystem state. -/
def checkPhase (docsHash : String) (fs : FS) : List Event × Bool × FS :=
  if fs.dirExists && fs.hashFile.isSome then
    match fs.hashFile with
    | some (some saved) =>
        if saved = docsHash then ([], false, fs)
        else ([Event.rmtree], true, applyRmtree fs)
    | _ => ([Event.rmtree], true, applyRmtree fs)
  else ([], true, fs)

/-- The index-lifecycle portion of `create_personal_ai_helper` (src/main.py,
lines 62-115), given the already-loaded document collection: an empty
collection exits with status 1 before touching the filesystem (lines 62-66);
otherwise the staleness check runs, `os.makedirs` ensures the directory
exists (line 101), and depending on `rebuild_db` the store is rebuilt and the
fresh hash written (lines 103-110) or the existing store is opened (lines
111-115). -/
def create_personal_ai_helper (docs : List Doc) (fs : FS) : List Event × FS :=
  if docs.isEmpty then ([Event.exitError], fs)
  else
    let docsHash := calculate_docs_hash docs
    let c := checkPhase docsHash fs
    let fs2 := applyMakedirs c.2.2
    if c.2.1 then
      (c.1 ++ [Event.makedirs, Event.build, Event.writeHash docsHash],
        applyWriteHash (applyBuild fs2) docsHash)
    else
      (c.1 ++ [Event.makedirs, Event.load], fs2)

/-! ### Trace predicates and concrete inputs used by the theorems -/

/-- Scanning helper for the fingerprint-after-index ordering: `seenBuild`
records whether a `build` has already occurred; every `writeHash` must find
it `true`. -/
def fpSeen : Bool → List Event → Bool
  | _, [] => true
  | seenBuild, Event.writeHash _ :: rest => seenBuild && fpSeen seenBuild rest
  | _, Event.build :: rest => fpSeen true rest
  | seenBuild, _ :: rest => fpSeen seenBuild rest

/-- Holds of a trace in which every fingerprint write is preceded by an index
build. -/
def fpAfterIndex (trace : List Event) : Bool := fpSeen false trace

def isBuild : Event → Bool
  | Event.build => true
  | _ => false

/-- Number of index rebuilds in a trace. -/
def countBuild (trace : List Event) : Nat := trace.countP isBuild

/-- Two-document collection whose pre-hash byte stream is `a{}b{}c{}`. -/
def collisionDocsA : List Doc := [⟨"a", []⟩, ⟨"b\x7b\x7dc", []⟩]

/-- A different two-document collection (both contents differ from
`collisionDocsA`) with the same pre-hash byte stream `a{}b{}c{}`. -/
def collisionDocsB : List Doc := [⟨"a\x7b\x7db", []⟩, ⟨"c", []⟩]

/-- Documents sharing the sort key `("s", "a")` but differing in their other
metadata. -/
def dupKeyDoc1 : Doc := ⟨"a", [("source", PyVal.str "s"), ("x", PyVal.int 1)]⟩

def dupKeyDoc2 : Doc := ⟨"a", [("source", PyVal.str "s"), ("x", PyVal.int 2)]⟩

/-- Documents with distinct sort keys (the spec's own scenario collection). -/
def distinctDoc1 : Doc := ⟨"A", [("source", PyVal.str "n1.md")]⟩

def distinctDoc2 : Doc := ⟨"B", [("source", PyVal.str "n2.md")]⟩

/-- Persistence directory present with prior index contents but no sidecar
hash file. -/
def staleDirNoHash : FS := ⟨true, Option.none, true, true⟩

/-- Persistence directory present, sidecar hash file present but
unreadable/unparseable. -/
def corruptFS : FS := ⟨true, some Option.none, true, true⟩

/-- Fresh state: nothing on disk yet. -/
def emptyFS : FS := ⟨false, Option.none, false, false⟩

/-- Keep-guard of the amended normalization claim: a nonempty list is kept
exactly when its first element is primitive. -/
def c9AmendedKeep : PyVal → Bool
  | PyVal.list (x :: _) => isPrimitive x
  | v => isPrimitive v

/-- The normalization function as the amended claim describes it. -/
def c9AmendedFilter (m : List (String × PyVal)) : List (String × PyVal) :=
  (m.filter fun kv => c9AmendedKeep kv.2).map fun kv => (kv.1, flattenVal kv.2)

set_option maxRecDepth 10000

/-! ### Order-theoretic facts about the Python string comparison -/

theorem charsLe_refl : ∀ as : List Char, charsLe as as = true
  | [] => rfl
  | a :: as => by
      unfold charsLe
      rw [if_neg (Nat.lt_irrefl a.toNat), if_neg (Nat.lt_irrefl a.toNat)]
      exact charsLe_refl as

theorem charsLe_total : ∀ as bs : List Char, charsLe as bs = true ∨ charsLe bs as = true
  | [], _ => Or.inl rfl
  | _ :: _, [] => Or.inr rfl
  | a :: as, b :: bs => by
      unfold charsLe
      by_cases h1 : a.toNat < b.toNat
      · left; rw [if_pos h1]
      · by_cases h2 : b.toNat < a.toNat
        · right; rw [if_pos h2]
        · rw [if_neg h1, if_neg h2, if_neg h2, if_neg h1]
          exact charsLe_total as bs

theorem charsLe_antisymm : ∀ as bs : List Char,
    charsLe as bs = true → charsLe bs as = true → as = bs
  | [], [], _, _ => rfl
  | [], _ :: _, _, h2 => by simp [charsLe] at h2
  | _ :: _, [], h1, _ => by simp [charsLe] at h1
  | a :: as, b :: bs, h1, h2 => by
      unfold charsLe at h1 h2
      by_cases hab : a.toNat < b.toNat
      · rw [if_neg (Nat.lt_asymm hab), if_pos hab] at h2
        cases h2
      · by_cases hba : b.toNat < a.toNat
        · rw [if_neg hab, if_pos hba] at h1
          cases h1
        · rw [if_neg hab, if_neg hba] at h1
          rw [if_neg hba, if_neg hab] at h2
          have hn : a.toNat = b.toNat := by omega
          have hchar : a = b := Char.eq_of_val_eq (UInt32.ext hn)
          rw [hchar, charsLe_antisymm as bs h1 h2]

theorem charsLe_trans : ∀ as bs cs : List Char,
    charsLe as bs = true → charsLe bs cs = true → charsLe as cs = true
  | [], _, _, _, _ => rfl
  | _ :: _, [], _, h1, _ => by simp [charsLe] at h1
  | _ :: _, _ :: _, [], _, h2 => by simp [charsLe] at h2
  | a :: as, b :: bs, c :: cs, h1, h2 => by
      unfold charsLe at h1 h2 ⊢
      by_cases hab : a.toNat < b.toNat <;> by_cases hbc : b.toNat < c.toNat
      · rw [if_pos (by omega : a.toNat < c.toNat)]
      · by_cases hcb : c.toNat < b.toNat
        · rw [if_neg hbc, if_pos hcb] at h2
          cases h2
        · rw [if_pos (by omega : a.toNat < c.toNat)]
      · by_cases hba : b.toNat < a.toNat
        · rw [if_neg hab, if_pos hba] at h1
          cases h1
        · rw [if_pos (by omega : a.toNat < c.toNat)]
      · by_cases hba : b.toNat < a.toNat
        · rw [if_neg hab, if_pos hba] at h1
          cases h1
        · by_cases hcb : c.toNat < b.toNat
          · rw [if_neg hbc, if_pos hcb] at h2
            cases h2
          · rw [if_neg hab, if_neg hba] at h1
            rw [if_neg hbc, if_neg hcb] at h2
            rw [if_neg (by omega : ¬ a.toNat < c.toNat),
              if_neg (by omega : ¬ c.toNat < a.toNat)]
            exact charsLe_trans as bs cs h1 h2

theorem strLe_refl (s : String) : strLe s s = true := charsLe_refl s.data

theorem strLe_total (s t : String) : strLe s t = true ∨ strLe t s = true :=
  charsLe_total s.data t.data

theorem strLe_antisymm (s t : String) (h1 : strLe s t = true) (h2 : strLe t s = true) :
    s = t := by
  have h := charsLe_antisymm s.data t.data h1 h2
  cases s
  cases t
  simp_all

theorem strLe_trans (s t u : String) (h1 : strLe s t = true) (h2 : strLe t u = true) :
    strLe s u = true :=
  charsLe_trans s.data t.data u.data h1 h2

/-! ### The document comparison is a total preorder, antisymmetric up to the
sort key -/

theorem docLe_total (a b : Doc) : docLe a b = true ∨ docLe b a = true := by
  unfold docLe strLt
  by_cases h1 : strLe (getSource a) (getSource b) = true <;>
    by_cases h2 : strLe (getSource b) (getSource a) = true
  · have hs : getSource a = getSource b := strLe_antisymm _ _ h1 h2
    rcases strLe_total a.page_content b.page_content with hc | hc
    · left; simp [hs, hc]
    · right; simp [hs.symm, hc]
  · simp only [Bool.not_eq_true] at h2
    left; simp [h2]
  · simp only [Bool.not_eq_true] at h1
    right; simp [h1]
  · rcases strLe_total (getSource a) (getSource b) with h | h
    · exact absurd h h1
    · exact absurd h h2

theorem docLe_trans (a b c : Doc) (h1 : docLe a b = true) (h2 : docLe b c = true) :
    docLe a c = true := by
  unfold docLe strLt at h1 h2 ⊢
  simp only [Bool.or_eq_true, Bool.and_eq_true, Bool.not_eq_true', beq_iff_eq] at h1 h2 ⊢
  rcases h1 with h1 | ⟨h1e, h1c⟩ <;> rcases h2 with h2 | ⟨h2e, h2c⟩
  · left
    by_cases h : strLe (getSource c) (getSource a) = true
    · have hab : strLe (getSource a) (getSource b) = true := by
        rcases strLe_total (getSource a) (getSource b) with hh | hh
        · exact hh
        · rw [hh] at h1; cases h1
      have hcb : strLe (getSource c) (getSource b) = true := strLe_trans _ _ _ h hab
      rw [hcb] at h2
      cases h2
    · simpa using h
  · left; rw [← h2e]; exact h1
  · left; rw [h1e]; exact h2
  · right; exact ⟨h1e.trans h2e, strLe_trans _ _ _ h1c h2c⟩

theorem docLe_antisymm (a b : Doc) (h1 : docLe a b = true) (h2 : docLe b a = true) :
    getSource a = getSource b ∧ a.page_content = b.page_content := by
  unfold docLe strLt at h1 h2
  simp only [Bool.or_eq_true, Bool.and_eq_true, Bool.not_eq_true', beq_iff_eq] at h1 h2
  rcases h1 with h1 | ⟨h1e, h1c⟩ <;> rcases h2 with h2 | ⟨h2e, h2c⟩
  · rcases strLe_total (getSource a) (getSource b) with h | h
    · rw [h] at h2; cases h2
    · rw [h] at h1; cases h1
  · rw [h2e, strLe_refl] at h1; cases h1
  · rw [h1e, strLe_refl] at h2; cases h2
  · exact ⟨h1e, strLe_antisymm _ _ h1c h2c⟩

/-! ### Insertion sort: permutation and sortedness -/

theorem insertBy_perm {α : Type} (le : α → α → Bool) (x : α) :
    ∀ l : List α, List.Perm (insertBy le x l) (x :: l)
  | [] => List.Perm.refl _
  | y :: ys => by
      unfold insertBy
      by_cases h : le x y = true
      · rw [if_pos h]
      · rw [if_neg h]
        exact (List.Perm.cons y (insertBy_perm le x ys)).trans (List.Perm.swap x y ys)

theorem sortBy_perm {α : Type} (le : α → α → Bool) :
    ∀ l : List α, List.Perm (sortBy le l) l
  | [] => List.Perm.refl _
  | x :: xs => (insertBy_perm le x (sortBy le xs)).trans ((sortBy_perm le xs).cons x)

theorem insertBy_pairwise {α : Type} (le : α → α → Bool)
    (htot : ∀ a b, le a b = true ∨ le b a = true)
    (htrans : ∀ a b c, le a b = true → le b c = true → le a c = true)
    (x : α) : ∀ l : List α, l.Pairwise (fun a b => le a b = true) →
      (insertBy le x l).Pairwise (fun a b => le a b = true)
  | [], _ => by simp [insertBy]
  | y :: ys, hl => by
      obtain ⟨hy, hys⟩ := List.pairwise_cons.mp hl
      unfold insertBy
      by_cases h : le x y = true
      · rw [if_pos h]
        refine List.pairwise_cons.mpr ⟨?_, hl⟩
        intro z hz
        rcases List.mem_cons.mp hz with rfl | hz2
        · exact h
        · exact htrans x y z h (hy z hz2)
      · rw [if_neg h]
        refine List.pairwise_cons.mpr ⟨?_, insertBy_pairwise le htot htrans x ys hys⟩
        intro z hz
        rcases List.mem_cons.mp ((insertBy_perm le x ys).mem_iff.mp hz) with rfl | hz2
        · rcases htot z y with hh | hh
          · exact absurd hh h
          · exact hh
        · exact hy z hz2

theorem sortBy_pairwise {α : Type} (le : α → α → Bool)
    (htot : ∀ a b, le a b = true ∨ le b a = true)
    (htrans : ∀ a b c, le a b = true → le b c = true → le a c = true) :
    ∀ l : List α, (sortBy le l).Pairwise (fun a b => le a b = true)
  | [] => List.Pairwise.nil
  | x :: xs =>
      insertBy_pairwise le htot htrans x (sortBy le xs)
        (sortBy_pairwise le htot htrans xs)

/-- Two sorted lists that are permutations of each other are equal, provided
no two distinct documents share the `(source, content)` sort key. -/
theorem sorted_perm_eq_of_key_inj :
    ∀ l1 l2 : List Doc, List.Perm l1 l2 →
      (∀ x ∈ l1, ∀ y ∈ l1, getSource x = getSource y →
        x.page_content = y.page_content → x = y) →
      l1.Pairwise (fun a b => docLe a b = true) →
      l2.Pairwise (fun a b => docLe a b = true) → l1 = l2
  | [], _, hperm, _, _, _ => hperm.nil_eq
  | _ :: _, [], hperm, _, _, _ => by simpa using hperm.length_eq
  | a :: t1, b :: t2, hperm, hinj, hs1, hs2 => by
      by_cases hab : a = b
      · subst hab
        have ht : List.Perm t1 t2 := hperm.cons_inv
        have htail := sorted_perm_eq_of_key_inj t1 t2 ht
          (fun x hx y hy => hinj x (List.mem_cons_of_mem a hx) y (List.mem_cons_of_mem a hy))
          (List.pairwise_cons.mp hs1).2 (List.pairwise_cons.mp hs2).2
        rw [htail]
      · have hb1 : b ∈ t1 := by
          rcases List.mem_cons.mp (hperm.symm.mem_iff.mp (List.mem_cons_self b t2)) with h | h
          · exact absurd h.symm hab
          · exact h
        have ha2 : a ∈ t2 := by
          rcases List.mem_cons.mp (hperm.mem_iff.mp (List.mem_cons_self a t1)) with h | h
          · exact absurd h hab
          · exact h
        have h1 : docLe a b = true := (List.pairwise_cons.mp hs1).1 b hb1
        have h2 : docLe b a = true := (List.pairwise_cons.mp hs2).1 a ha2
        obtain ⟨hs, hc⟩ := docLe_antisymm a b h1 h2
        exact absurd (hinj a (List.mem_cons_self a t1) b (List.mem_cons_of_mem a hb1) hs hc) hab

/-! ### Facts about `filter_metadata` -/

theorem flattenVal_primitive (v : PyVal) (h : isPrimitive v = true) : flattenVal v = v := by
  cases v with
  | list l => simp [isPrimitive] at h
  | dict d => simp [isPrimitive] at h
  | none => simp [isPrimitive] at h
  | str s => rfl
  | int n => rfl
  | float r => rfl
  | bool b => rfl

theorem keep_flatten_primitive (v : PyVal)
    (h : (isPrimitive v || listHeadPrimitive v) = true) :
    isPrimitive (flattenVal v) = true := by
  cases v with
  | list l =>
      cases l with
      | nil => simp [isPrimitive, listHeadPrimitive] at h
      | cons x xs => simpa [isPrimitive, listHeadPrimitive, flattenVal] using h
  | dict d => simp [isPrimitive, listHeadPrimitive] at h
  | none => simp [isPrimitive, listHeadPrimitive] at h
  | str s => rfl
  | int n => rfl
  | float r => rfl
  | bool b => rfl

theorem filter_metadata_all_primitive (m : List (String × PyVal)) :
    ∀ kv ∈ filter_metadata m, isPrimitive kv.2 = true := by
  intro kv hkv
  unfold filter_metadata at hkv
  rcases List.mem_map.mp hkv with ⟨kv0, hkv0, rfl⟩
  exact keep_flatten_primitive kv0.2 (List.mem_filter.mp hkv0).2

theorem filter_metadata_cons (kv : String × PyVal) (t : List (String × PyVal)) :
    filter_metadata (kv :: t) =
      if isPrimitive kv.2 || listHeadPrimitive kv.2 then
        (kv.1, flattenVal kv.2) :: filter_metadata t
      else filter_metadata t := by
  unfold filter_metadata
  rw [List.filter_cons]
  by_cases h : (isPrimitive kv.2 || listHeadPrimitive kv.2) = true
  · rw [if_pos h, if_pos h, List.map_cons]
  · rw [if_neg h, if_neg h]

theorem filter_metadata_id_of_primitive :
    ∀ m : List (String × PyVal), (∀ kv ∈ m, isPrimitive kv.2 = true) →
      filter_metadata m = m
  | [], _ => rfl
  | kv :: t, h => by
      have hkv : isPrimitive kv.2 = true := h kv (List.mem_cons_self kv t)
      rw [filter_metadata_cons, if_pos (by rw [hkv]; rfl),
        flattenVal_primitive kv.2 hkv,
        filter_metadata_id_of_primitive t (fun x hx => h x (List.mem_cons_of_mem kv hx))]

theorem keep_eq_amended (v : PyVal) :
    (isPrimitive v || listHeadPrimitive v) = c9AmendedKeep v := by
  cases v with
  | list l => cases l <;> rfl
  | str s => rfl
  | int n => rfl
  | float r => rfl
  | bool b => rfl
  | dict d => rfl
  | none => rfl

/-! ### Facts about the staleness resolver -/

theorem isEmpty_false_of_ne {α : Type} (l : List α) (h : l ≠ []) : l.isEmpty = false := by
  cases l with
  | nil => exact absurd rfl h
  | cons a t => rfl

/-- The staleness check has exactly three outcomes: reuse (hash file readable
and matching), reset-then-rebuild (readable mismatch or unreadable file), and
rebuild without reset (directory or hash file missing). -/
theorem checkPhase_cases (h : String) (fs : FS) :
    (checkPhase h fs = ([], false, fs) ∧ fs.hashFile = some (some h)) ∨
    checkPhase h fs = ([Event.rmtree], true, applyRmtree fs) ∨
    checkPhase h fs = ([], true, fs) := by
  unfold checkPhase
  rcases hfs : fs.hashFile with _ | hv
  · right; right
    simp
  · rcases hv with _ | s
    · by_cases hd : fs.dirExists = true
      · right; left
        simp [hd]
      · right; right
        have hd2 : fs.dirExists = false := by revert hd; cases fs.dirExists <;> simp
        simp [hd2]
    · by_cases hd : fs.dirExists = true
      · by_cases hs : s = h
        · left
          subst hs
          exact ⟨by simp [hd], rfl⟩
        · right; left
          simp [hd, hs]
      · right; right
        have hd2 : fs.dirExists = false := by revert hd; cases fs.dirExists <;> simp
        simp [hd2]

/-- After any run on a nonempty collection, the directory exists and the
sidecar hash file holds the collection's fingerprint. -/
theorem run_post (docs : List Doc) (fs : FS) (hne : docs ≠ []) :
    (create_personal_ai_helper docs fs).2.dirExists = true ∧
    (create_personal_ai_helper docs fs).2.hashFile =
      some (some (calculate_docs_hash docs)) := by
  have hd : docs.isEmpty = false := isEmpty_false_of_ne docs hne
  unfold create_personal_ai_helper
  rcases checkPhase_cases (calculate_docs_hash docs) fs with ⟨hc, hh⟩ | hc | hc <;>
    simp [hd, hc, applyMakedirs, applyBuild, applyWriteHash, applyRmtree]
  exact hh

/-- When the stored fingerprint matches, the run only re-opens the store. -/
theorem run_reuse (docs : List Doc) (fs : FS) (hne : docs ≠ [])
    (hdir : fs.dirExists = true)
    (hhash : fs.hashFile = some (some (calculate_docs_hash docs))) :
    (create_personal_ai_helper docs fs).1 = [Event.makedirs, Event.load] := by
  have hd : docs.isEmpty = false := isEmpty_false_of_ne docs hne
  unfold create_personal_ai_helper checkPhase
  simp [hd, hdir, hhash]

/-! ### The claims -/

/-- C1: refuted as stated and exhibited as a code bug — the pre-hash byte
encoding (content bytes then sorted-key JSON metadata bytes, concatenated
with no length prefix or delimiter) maps the two logically distinct
collections `collisionDocsA` and `collisionDocsB` (their documents' contents
all differ) to the identical byte stream, hence `calculate_docs_hash` gives
them the identical fingerprint: a structural collision, not a hash-function
collision. -/
theorem c1_encoding_collision :
    encodeDocs collisionDocsA = encodeDocs collisionDocsB ∧
    calculate_docs_hash collisionDocsA = calculate_docs_hash collisionDocsB ∧
    collisionDocsA.map Doc.page_content ≠ collisionDocsB.map Doc.page_content := by
  refine ⟨rfl, rfl, ?_⟩
  decide

/-- C2 (counterexample): two distinct documents sharing the `(source,
content)` sort key but differing in other metadata; because Python's sort is
stable, the two load orders feed the hash different byte streams and
`calculate_docs_hash` differs on a permutation of the same collection. -/
theorem c2_counterexample_order_dependent :
    List.Perm [dupKeyDoc1, dupKeyDoc2] [dupKeyDoc2, dupKeyDoc1] ∧
    calculate_docs_hash [dupKeyDoc1, dupKeyDoc2] ≠
      calculate_docs_hash [dupKeyDoc2, dupKeyDoc1] :=
  ⟨List.Perm.swap dupKeyDoc2 dupKeyDoc1 [], by decide⟩

/-- C2 (amended): `calculate_docs_hash` is invariant under any permutation of
the collection, provided no two distinct documents share the
`(metadata source, content)` sort key. -/
theorem c2_amended_order_independence (l1 l2 : List Doc)
    (hperm : List.Perm l1 l2)
    (hinj : ∀ x ∈ l1, ∀ y ∈ l1, getSource x = getSource y →
      x.page_content = y.page_content → x = y) :
    calculate_docs_hash l1 = calculate_docs_hash l2 := by
  have hsort : sortBy docLe l1 = sortBy docLe l2 :=
    sorted_perm_eq_of_key_inj (sortBy docLe l1) (sortBy docLe l2)
      (((sortBy_perm docLe l1).trans hperm).trans (sortBy_perm docLe l2).symm)
      (fun x hx y hy => hinj x ((sortBy_perm docLe l1).mem_iff.mp hx)
        y ((sortBy_perm docLe l1).mem_iff.mp hy))
      (sortBy_pairwise docLe docLe_total docLe_trans l1)
      (sortBy_pairwise docLe docLe_total docLe_trans l2)
  unfold calculate_docs_hash encodeDocs
  rw [hsort]

/-- C2 witness: the spec's scenario collection, whose two documents have
distinct sort keys, hashes identically in both load orders. -/
theorem c2_amended_order_independence_witness :
    calculate_docs_hash [distinctDoc1, distinctDoc2] =
      calculate_docs_hash [distinctDoc2, distinctDoc1] :=
  c2_amended_order_independence [distinctDoc1, distinctDoc2] [distinctDoc2, distinctDoc1]
    (List.Perm.swap distinctDoc2 distinctDoc1 [])
    (by
      intro x hx y hy hs hc
      simp only [List.mem_cons, List.not_mem_nil, or_false] at hx hy
      rcases hx with rfl | rfl <;> rcases hy with rfl | rfl
      · rfl
      · exact absurd hs (by decide)
      · exact absurd hs (by decide)
      · rfl)

/-- C3: refuted as stated and exhibited as a code bug — with the persistence
directory present (still holding prior contents) and the sidecar hash file
absent, the rebuild is triggered yet no directory reset happens: the trace
contains no `rmtree` and the old contents survive next to the freshly built
index. -/
theorem c3_rebuild_without_reset :
    (create_personal_ai_helper [distinctDoc1] staleDirNoHash).1 =
      [Event.makedirs, Event.build,
        Event.writeHash (calculate_docs_hash [distinctDoc1])] ∧
    Event.rmtree ∉ (create_personal_ai_helper [distinctDoc1] staleDirNoHash).1 ∧
    (create_personal_ai_helper [distinctDoc1] staleDirNoHash).2.hasOldFiles = true := by
  refine ⟨rfl, ?_, rfl⟩
  rw [show (create_personal_ai_helper [distinctDoc1] staleDirNoHash).1 =
      [Event.makedirs, Event.build,
        Event.writeHash (calculate_docs_hash [distinctDoc1])] from rfl]
  simp

/-- C4: on every execution of the resolver, every fingerprint write is
preceded in the trace by an index build: the fingerprint-after-index ordering
holds for all document collections and filesystem states. -/
theorem c4_fingerprint_after_index (docs : List Doc) (fs : FS) :
    fpAfterIndex (create_personal_ai_helper docs fs).1 = true := by
  by_cases hd : docs.isEmpty = true
  · unfold create_personal_ai_helper
    simp [hd, fpAfterIndex, fpSeen]
  · unfold create_personal_ai_helper
    rcases checkPhase_cases (calculate_docs_hash docs) fs with ⟨hc, _⟩ | hc | hc <;>
      simp [hd, hc, fpAfterIndex, fpSeen]

/-- C5: for a nonempty collection, a run invokes `build` at most once, and a
second run on the state the first run leaves behind invokes it not at all:
unchanged documents are reused, never rebuilt. -/
theorem c5_idempotent_reuse (docs : List Doc) (fs : FS) (hne : docs ≠ []) :
    countBuild (create_personal_ai_helper docs fs).1 ≤ 1 ∧
    countBuild (create_personal_ai_helper docs
      (create_personal_ai_helper docs fs).2).1 = 0 := by
  constructor
  · have hd : docs.isEmpty = false := isEmpty_false_of_ne docs hne
    unfold create_personal_ai_helper
    rcases checkPhase_cases (calculate_docs_hash docs) fs with ⟨hc, _⟩ | hc | hc <;>
      simp [hd, hc, countBuild, isBuild, List.countP_cons, List.countP_nil]
  · obtain ⟨h1, h2⟩ := run_post docs fs hne
    rw [run_reuse docs (create_personal_ai_helper docs fs).2 hne h1 h2]
    rfl

/-- C5 witness: one document, fresh filesystem; the first run builds once,
the second reuses. -/
theorem c5_idempotent_reuse_witness :
    countBuild (create_personal_ai_helper [distinctDoc1] emptyFS).1 ≤ 1 ∧
    countBuild (create_personal_ai_helper [distinctDoc1]
      (create_personal_ai_helper [distinctDoc1] emptyFS).2).1 = 0 :=
  c5_idempotent_reuse [distinctDoc1] emptyFS (List.cons_ne_nil _ _)

/-- C6: with the persistence directory present and the sidecar fingerprint
file missing or unreadable/unparseable, the run treats the index as stale:
it rebuilds, writes a fresh fingerprint, and raises no error (the trace has
no `exitError` and the final state stores the current fingerprint). -/
theorem c6_corruption_recovery (docs : List Doc) (fs : FS) (hne : docs ≠ [])
    (hdir : fs.dirExists = true)
    (hmiss : fs.hashFile = Option.none ∨ fs.hashFile = some Option.none) :
    Event.build ∈ (create_personal_ai_helper docs fs).1 ∧
    Event.writeHash (calculate_docs_hash docs) ∈ (create_personal_ai_helper docs fs).1 ∧
    Event.exitError ∉ (create_personal_ai_helper docs fs).1 ∧
    (create_personal_ai_helper docs fs).2.hashFile =
      some (some (calculate_docs_hash docs)) := by
  have hd : docs.isEmpty = false := isEmpty_false_of_ne docs hne
  unfold create_personal_ai_helper checkPhase
  rcases hmiss with hm | hm <;>
    simp [hd, hm, hdir, applyRmtree, applyMakedirs, applyBuild, applyWriteHash]

/-- C6 witness: one document, directory present, hash file unreadable. -/
theorem c6_corruption_recovery_witness :
    Event.build ∈ (create_personal_ai_helper [distinctDoc1] corruptFS).1 ∧
    Event.writeHash (calculate_docs_hash [distinctDoc1]) ∈
      (create_personal_ai_helper [distinctDoc1] corruptFS).1 ∧
    Event.exitError ∉ (create_personal_ai_helper [distinctDoc1] corruptFS).1 ∧
    (create_personal_ai_helper [distinctDoc1] corruptFS).2.hashFile =
      some (some (calculate_docs_hash [distinctDoc1])) :=
  c6_corruption_recovery [distinctDoc1] corruptFS (List.cons_ne_nil _ _) rfl (Or.inr rfl)

/-- C7: an empty collection makes initialization fail with the error exit
(status 1) and no filesystem effect: the trace is exactly the error exit and
the state is returned unchanged. -/
theorem c7_empty_input_rejection (fs : FS) :
    create_personal_ai_helper [] fs = ([Event.exitError], fs) := rfl

/-- C8: refuted as stated and exhibited as a code bug — for a raw document
whose metadata lacks a `source` key (for example metadata `{"page": 1}` of a
file named `notes.md`), the loader populates `source` with the constant
string `"unknown"` (the basename of the `get` default), not with the
document's filename. -/
theorem c8_source_fallback_unknown :
    (clean_metadata [("page", PyVal.int 1)]).lookup "source" =
      some (PyVal.str "unknown") ∧
    PyVal.str "unknown" ≠ PyVal.str "notes.md" := by
  refine ⟨rfl, ?_⟩
  intro h
  rw [PyVal.str.injEq] at h
  exact absurd h (by decide)

/-- C9 (counterexample): on the metadata `{"k": [1, None]}`, whose list value
is not a list of primitives, the claimed specification drops the entry but
`filter_metadata` keeps it as its first element `1`: the code checks only
the first list element. -/
theorem c9_counterexample_first_element_only :
    filter_metadata [("k", PyVal.list [PyVal.int 1, PyVal.none])] ≠
      c9SpecFilter [("k", PyVal.list [PyVal.int 1, PyVal.none])] := by
  intro h
  have h1 : ([("k", PyVal.int 1)] : List (String × PyVal)) = [] := h
  exact List.noConfusion h1

/-- C9 (amended): `filter_metadata` keeps primitive values unchanged,
replaces a nonempty list value whose first element is primitive by that first
element, drops every other entry, and every value of its output is
primitive. -/
theorem c9_amended_normalization (m : List (String × PyVal)) :
    filter_metadata m = c9AmendedFilter m ∧
    ∀ kv ∈ filter_metadata m, isPrimitive kv.2 = true := by
  constructor
  · unfold filter_metadata c9AmendedFilter
    rw [show (fun kv : String × PyVal => isPrimitive kv.2 || listHeadPrimitive kv.2) =
        (fun kv : String × PyVal => c9AmendedKeep kv.2) from
      funext fun kv => keep_eq_amended kv.2]
  · exact filter_metadata_all_primitive m

/-- C10: `filter_metadata` is idempotent — every value it outputs is
primitive, and primitive-valued entries pass through it unchanged. -/
theorem c10_filter_metadata_idempotent (m : List (String × PyVal)) :
    filter_metadata (filter_metadata m) = filter_metadata m :=
  filter_metadata_id_of_primitive (filter_metadata m) (filter_metadata_all_primitive m)
